import Mathlib

/-!
A shallow embedding of the World Bank dashboard script
(`src/streamlit_app.py`) and proofs about its data pipeline:
country-catalog loading (`get_countries`), indicator fetching
(`get_wb_indicator_data`), the latest-year slice, the pivot step
(`df.pivot(index='Year', columns='Country', values='Value')`), and the
CSV export / download filename.

Values carried by observations are kept abstract (a type parameter `α`
with decidable equality) since the script never computes with them: it
only moves them from the provider's JSON into rows, tables and CSV
cells.  JSON `null` is modelled as `Option.none`.
-/

namespace Macrodata

/-- a flat observation record, one row of the `all_data` DataFrame built by
`get_wb_indicator_data`: `{'Country': ..., 'Year': int(...), 'Value': ...}`. -/
structure Obs (α : Type) where
  country : String
  year : Int
  value : α
deriving DecidableEq, Repr

/-- one element of `data[1]` in a per-country indicator response.
`country` models `entry['country']['value']` (`none` when the nested key is
missing, so that reading it raises `KeyError`); `date` models
`int(entry['date'])` (`none` when the field is missing or not an integer
string, so that reading it raises); `value` models `entry['value']`
(`none` is JSON `null`, which the script tests with `is not None`). -/
structure RawEntry (α : Type) where
  country : Option String
  date : Option Int
  value : Option α
deriving DecidableEq, Repr

/-- the provider's answer to one per-country request, as seen by the
`try` block of `get_wb_indicator_data`: `netFail` when `requests.get` or
`response.json()` raises; `noData` when `len(data) > 1 and data[1]` is
falsy (short array, `null`, or empty list); `payload es` when `data[1]`
is a non-empty array of entries. -/
inductive WBResponse (α : Type) where
  | netFail
  | noData
  | payload (entries : List (RawEntry α))
deriving DecidableEq, Repr

/-- the entry list a response exposes to the loop body (empty when the
loop body never runs). -/
def entriesOf : WBResponse α → List (RawEntry α)
  | .netFail => []
  | .noData => []
  | .payload es => es

/-- the URL built for one country inside the fetch loop. -/
def wbUrl (country indicator_code : String) (start_year end_year : Int) : String :=
  "https://api.worldbank.org/v2/country/" ++ country ++ "/indicator/" ++ indicator_code ++
    "?format=json&per_page=100&date=" ++ toString start_year ++ ":" ++ toString end_year

/-- the inner `for entry in data[1]` loop.  An entry whose `value` is
`null` is skipped; an entry with a non-null value but an unreadable
country name or date raises inside the `try`, which aborts the rest of
this country's entries while keeping the rows already appended. -/
def processEntries : List (RawEntry α) → List (Obs α)
  | [] => []
  | e :: rest =>
    match e.value with
    | none => processEntries rest
    | some v =>
      match e.country, e.date with
      | some c, some y => ⟨c, y, v⟩ :: processEntries rest
      | _, _ => []

/-- rows contributed by one country's response: nothing on a network or
JSON failure, nothing on a missing payload, otherwise the processed
entries. -/
def processCountry : WBResponse α → List (Obs α)
  | .netFail => []
  | .noData => []
  | .payload es => processEntries es

/-- the `for country in country_codes` loop of `get_wb_indicator_data`,
threading the mutable `all_data` accumulator and the list of URLs hit by
`requests.get` (one per iteration, issued before anything can fail). -/
def fetchLoop (provider : String → WBResponse α) (indicator_code : String)
    (start_year end_year : Int) :
    List String → List (Obs α) → List String → List (Obs α) × List String
  | [], acc, reqs => (acc, reqs)
  | c :: rest, acc, reqs =>
    fetchLoop provider indicator_code start_year end_year rest
      (acc ++ processCountry (provider (wbUrl c indicator_code start_year end_year)))
      (reqs ++ [wbUrl c indicator_code start_year end_year])

/-- observations returned by `get_wb_indicator_data` for a given provider
behaviour (`provider` maps each request URL to its response). -/
def get_wb_indicator_data (provider : String → WBResponse α)
    (country_codes : List String) (indicator_code : String)
    (start_year end_year : Int) : List (Obs α) :=
  (fetchLoop provider indicator_code start_year end_year country_codes [] []).1

/-- network requests issued by one call to `get_wb_indicator_data`. -/
def wb_requests (provider : String → WBResponse α)
    (country_codes : List String) (indicator_code : String)
    (start_year end_year : Int) : List String :=
  (fetchLoop provider indicator_code start_year end_year country_codes [] []).2

/-- the per-request view the spec describes: observations are grouped by
country in the order of `country_codes`, and within a country they follow
the provider's entry order. -/
def fetchIndicatorSpec (provider : String → WBResponse α)
    (country_codes : List String) (indicator_code : String)
    (start_year end_year : Int) : List (Obs α) :=
  country_codes.flatMap fun c =>
    processCountry (provider (wbUrl c indicator_code start_year end_year))

/-- models `latest_year = df['Year'].max()`: `none` on an empty frame, otherwise
the running maximum of the `Year` column. -/
def latest_year : List (Obs α) → Option Int
  | [] => none
  | o :: rest => some (rest.foldl (fun m p => max m p.year) o.year)

/-- models `latest_data = df[df['Year'] == latest_year]`. -/
def latest_data (df : List (Obs α)) : List (Obs α) :=
  match latest_year df with
  | none => []
  | some y => df.filter (fun o => o.year == y)

/-- the rows of `latest_data` for one country, as selected by
`latest_data[latest_data['Country'] == country]`. -/
def country_latest (latest : List (Obs α)) (country : String) : List (Obs α) :=
  latest.filter (fun o => o.country == country)

/-- the metric shown for a country: `values[0]` of its slice when the
slice is non-empty, nothing otherwise. -/
def metric_value (latest : List (Obs α)) (country : String) : Option α :=
  ((country_latest latest country).head?).map (·.value)

/-- two rows share a `(Year, Country)` key; `DataFrame.pivot` refuses to
reshape exactly when this holds. -/
def hasDupKey : List (Obs α) → Bool
  | [] => false
  | o :: rest =>
    rest.any (fun p => p.year == o.year && p.country == o.country) || hasDupKey rest

/-- distinct years of the frame, ascending (pandas stores the factorized
index level sorted). -/
def pivotYears (df : List (Obs α)) : List Int :=
  List.insertionSort (· ≤ ·) (df.map (·.year)).dedup

/-- code-point comparison on characters, the order Python string
comparison uses. -/
def charLtB (a b : Char) : Bool := a.toNat < b.toNat

/-- code-point equality on characters. -/
def charEqB (a b : Char) : Bool := a.toNat == b.toNat

/-- lexicographic code-point comparison on character lists. -/
def strLtAux : List Char → List Char → Bool
  | [], [] => false
  | [], _ :: _ => true
  | _ :: _, [] => false
  | a :: as, b :: bs => charLtB a b || (charEqB a b && strLtAux as bs)

/-- compares `a <= b` for strings under Python's lexicographic order. -/
def strLeB (a b : String) : Bool := !(strLtAux b.data a.data)

/-- insertion into a list sorted by `le`. -/
def insertSorted (le : β → β → Bool) (a : β) : List β → List β
  | [] => [a]
  | b :: bs => if le a b then a :: b :: bs else b :: insertSorted le a bs

/-- insertion sort by a boolean comparison. -/
def sortByLe (le : β → β → Bool) : List β → List β
  | [] => []
  | a :: as => insertSorted le a (sortByLe le as)

/-- distinct country display names of the frame, ascending (pandas stores
the factorized column level sorted). -/
def pivotCountries (df : List (Obs α)) : List String :=
  sortByLe strLeB (df.map (·.country)).dedup

/-- the value at one `(Year, Country)` cell, when a row for it exists. -/
def pivotCell (df : List (Obs α)) (y : Int) (c : String) : Option α :=
  (df.find? (fun o => o.year == y && o.country == c)).map (·.value)

/-- the reshaped table: row labels, column labels, and a row-major grid of
cells (`none` is a `NaN` hole). -/
structure PivotTable (α : Type) where
  years : List Int
  countries : List String
  rows : List (List (Option α))
deriving DecidableEq, Repr

/-- models `pivot_df = df.pivot(index='Year', columns='Country', values='Value')`:
raises `ValueError` (`none` here) when the frame holds duplicate
`(Year, Country)` keys, otherwise reshapes into the year-by-country grid. -/
def pivot_df (df : List (Obs α)) : Option (PivotTable α) :=
  if hasDupKey df then none
  else some
    { years := pivotYears df
      countries := pivotCountries df
      rows := (pivotYears df).map fun y =>
        (pivotCountries df).map fun c => pivotCell df y c }

/-- one CSV cell: a rendered value, or the empty field a `NaN` prints as. -/
def csvCell (showVal : α → String) : Option α → String
  | none => ""
  | some v => showVal v

/-- renders `pivot_df.to_csv()` as a list of rows of fields: the header row is the
index name followed by the column labels (the columns' own name is not
written to CSV), then one row per year with the year first. -/
def to_csv (showVal : α → String) (t : PivotTable α) : List (List String) :=
  ("Year" :: t.countries) ::
    (t.years.zip t.rows).map fun yr => toString yr.1 :: yr.2.map (csvCell showVal)

/-- the CSV text offered by the download button, produced from the frame
when the pivot succeeds. -/
def csv_export (showVal : α → String) (df : List (Obs α)) :
    Option (List (List String)) :=
  (pivot_df df).map (to_csv showVal)

/-- builds the download name from the f-string: indicator label with spaces
replaced by underscores, then the start and end year, then `.csv`. -/
def download_file_name (selected_indicator : String) (start_year end_year : Int) : String :=
  selected_indicator.replace " " "_" ++ "_" ++ toString start_year ++ "_" ++
    toString end_year ++ ".csv"

/-- what one click of the Load Data button produces. -/
inductive LoadOutcome (α : Type) where
  | rangeError
  | fetched (df : List (Obs α))
deriving DecidableEq, Repr

/-- the click handler body (lines 194-200 of the script): the year-range
guard runs first and short-circuits the whole fetch; otherwise
`get_wb_indicator_data` runs and its per-country requests go out.  The
second component lists the network requests the click caused. -/
def load_data_flow (provider : String → WBResponse α)
    (country_codes : List String) (indicator_code : String)
    (start_year end_year : Int) : LoadOutcome α × List String :=
  if start_year > end_year then (.rangeError, [])
  else
    (.fetched (get_wb_indicator_data provider country_codes indicator_code start_year end_year),
     wb_requests provider country_codes indicator_code start_year end_year)

/-- a JSON field as the catalog parser sees it: absent from the object
(reading it raises `KeyError`), present but `null`, or a string. -/
inductive JField where
  | missing
  | null
  | str (s : String)
deriving DecidableEq, Repr

/-- one element of `data[1]` in the country-listing response;
`region_value` models the nested read `country['region']['value']`. -/
structure RawCountry where
  id : JField
  name : JField
  capitalCity : JField
  region_value : JField
deriving DecidableEq, Repr

/-- a row of the catalog DataFrame; fields are `none` when the provider
sent `null` for them. -/
structure Country where
  id : Option String
  name : Option String
  region : Option String
deriving DecidableEq, Repr

/-- the country-listing response: a network/JSON failure, or the parsed
entry array `data[1]`. -/
inductive CatalogResponse where
  | netFail
  | ok (entries : List RawCountry)
deriving DecidableEq, Repr

/-- Python truthiness of `country['capitalCity']` when the key is present:
`null` and the empty string are falsy. -/
def fieldTruthy : JField → Bool
  | .str s => s ≠ ""
  | _ => false

/-- reads a present field into a DataFrame cell; `none` means the read
raises `KeyError`. -/
def readField : JField → Option (Option String)
  | .missing => none
  | .null => some none
  | .str s => some (some s)

/-- the `for country in data[1]` loop of `get_countries`: skip entries
with a falsy capital city, build a row otherwise; `none` when any read
raises, which discards the whole batch. -/
def processCatalog : List RawCountry → Option (List Country)
  | [] => some []
  | c :: rest =>
    match c.capitalCity with
    | .missing => none
    | .null => processCatalog rest
    | .str s =>
      if s = "" then processCatalog rest
      else
        match readField c.id, readField c.name, readField c.region_value with
        | some i, some n, some r =>
          (processCatalog rest).map (⟨i, n, r⟩ :: ·)
        | _, _, _ => none

/-- models `get_countries`: the parsed rows, or an empty frame when the request,
the JSON decode, or any field read inside the loop raises. -/
def get_countries : CatalogResponse → List Country
  | .netFail => []
  | .ok entries => (processCatalog entries).getD []

/-- the filter-and-project the spec describes for the catalog: drop
entries whose capital-city field is null or empty, keep the rest as
`(id, name, region)` rows. -/
def catalogSpec (entries : List RawCountry) : List Country :=
  entries.filterMap fun c =>
    if fieldTruthy c.capitalCity then
      some ⟨(readField c.id).getD none, (readField c.name).getD none,
            (readField c.region_value).getD none⟩
    else none

/-- well-formedness of a country-listing payload per the interface
description: every entry has its `id`, `name`, `capitalCity` and
`region.value` fields present (each may still be `null`). -/
def wellFormed (entries : List RawCountry) : Prop :=
  ∀ c ∈ entries, c.id ≠ JField.missing ∧ c.name ≠ JField.missing ∧
    c.capitalCity ≠ JField.missing ∧ c.region_value ≠ JField.missing

/-- the total per-entry projection: the observation an entry yields when
all three reads succeed and the value is non-null. -/
def obsOfEntry : RawEntry α → Option (Obs α) := fun e =>
  match e.value, e.country, e.date with
  | some v, some c, some y => some ⟨c, y, v⟩
  | _, _, _ => none

/-- the filename pattern the spec states: the indicator label with spaces
replaced by underscores, the start year, and the end year, joined by
underscores, with extension `.csv`. -/
def download_file_name_spec (label : String) (start_year end_year : Int) : String :=
  String.intercalate "_" [label.replace " " "_", toString start_year, toString end_year] ++
    ".csv"

theorem fetchLoop_eq (provider : String → WBResponse α) (ind : String)
    (sy ey : Int) :
    ∀ (codes : List String) (acc : List (Obs α)) (reqs : List String),
      fetchLoop provider ind sy ey codes acc reqs =
        (acc ++ codes.flatMap (fun c => processCountry (provider (wbUrl c ind sy ey))),
         reqs ++ codes.map (fun c => wbUrl c ind sy ey)) := by
  intro codes
  induction codes with
  | nil => intro acc reqs; simp [fetchLoop]
  | cons c rest ih =>
    intro acc reqs
    simp [fetchLoop, ih, List.flatMap_cons, List.append_assoc]

theorem get_wb_eq_flatMap (provider : String → WBResponse α)
    (codes : List String) (ind : String) (sy ey : Int) :
    get_wb_indicator_data provider codes ind sy ey =
      fetchIndicatorSpec provider codes ind sy ey := by
  simp [get_wb_indicator_data, fetchIndicatorSpec, fetchLoop_eq]

theorem wb_requests_eq_map (provider : String → WBResponse α)
    (codes : List String) (ind : String) (sy ey : Int) :
    wb_requests provider codes ind sy ey =
      codes.map (fun c => wbUrl c ind sy ey) := by
  simp [wb_requests, fetchLoop_eq]

theorem processCountry_eq (r : WBResponse α) :
    processCountry r = processEntries (entriesOf r) := by
  cases r <;> rfl

theorem processEntries_append_eq_filterMap (es : List (RawEntry α)) :
    ∃ t, es.filterMap obsOfEntry = processEntries es ++ t := by
  induction es with
  | nil => exact ⟨[], rfl⟩
  | cons e rest ih =>
    obtain ⟨t, ht⟩ := ih
    cases hv : e.value with
    | none =>
      exact ⟨t, by simp [List.filterMap_cons, obsOfEntry, hv, processEntries, ht]⟩
    | some v =>
      cases hc : e.country with
      | none =>
        exact ⟨rest.filterMap obsOfEntry,
          by simp [List.filterMap_cons, obsOfEntry, hv, hc, processEntries]⟩
      | some c =>
        cases hd : e.date with
        | none =>
          exact ⟨rest.filterMap obsOfEntry,
            by simp [List.filterMap_cons, obsOfEntry, hv, hc, hd, processEntries]⟩
        | some y =>
          exact ⟨t,
            by simp [List.filterMap_cons, obsOfEntry, hv, hc, hd, processEntries, ht]⟩

theorem processEntries_mem (es : List (RawEntry α)) :
    ∀ o ∈ processEntries es, ∃ e ∈ es,
      e.country = some o.country ∧ e.date = some o.year ∧ e.value = some o.value := by
  induction es with
  | nil => simp [processEntries]
  | cons e rest ih =>
    intro o ho
    cases hv : e.value with
    | none =>
      simp only [processEntries, hv] at ho
      obtain ⟨e', he', h'⟩ := ih o ho
      exact ⟨e', List.mem_cons_of_mem _ he', h'⟩
    | some v =>
      cases hc : e.country with
      | none => simp [processEntries, hv, hc] at ho
      | some c =>
        cases hd : e.date with
        | none => simp [processEntries, hv, hc, hd] at ho
        | some y =>
          simp only [processEntries, hv, hc, hd, List.mem_cons] at ho
          rcases ho with rfl | ho
          · exact ⟨e, List.mem_cons_self _ _, hc, hd, hv⟩
          · obtain ⟨e', he', h'⟩ := ih o ho
            exact ⟨e', List.mem_cons_of_mem _ he', h'⟩

theorem pairwise_of_hasDupKey_eq_false {df : List (Obs α)} :
    hasDupKey df = false →
      df.Pairwise (fun a b => ¬(a.year = b.year ∧ a.country = b.country)) := by
  induction df with
  | nil => intro _; exact List.Pairwise.nil
  | cons o rest ih =>
    intro h
    simp only [hasDupKey, Bool.or_eq_false_iff, List.any_eq_false, Bool.and_eq_true,
      beq_iff_eq] at h
    obtain ⟨h1, h2⟩ := h
    refine List.Pairwise.cons ?_ (ih h2)
    intro b hb hcontra
    exact h1 b hb ⟨hcontra.1.symm, hcontra.2.symm⟩

theorem foldl_max_year_le (l : List (Obs α)) :
    ∀ a : Int, a ≤ l.foldl (fun m p => max m p.year) a := by
  induction l with
  | nil => intro a; exact le_refl a
  | cons o rest ih =>
    intro a
    exact le_trans (le_max_left a o.year) (ih (max a o.year))

theorem foldl_max_year_ge_mem (l : List (Obs α)) :
    ∀ a : Int, ∀ o ∈ l, o.year ≤ l.foldl (fun m p => max m p.year) a := by
  induction l with
  | nil => intro a o ho; simp at ho
  | cons p rest ih =>
    intro a o ho
    rcases List.mem_cons.mp ho with rfl | ho
    · exact le_trans (le_max_right a o.year) (foldl_max_year_le rest (max a o.year))
    · exact ih (max a p.year) o ho

theorem foldl_max_year_mem_or (l : List (Obs α)) :
    ∀ a : Int, l.foldl (fun m p => max m p.year) a = a ∨
      ∃ o ∈ l, l.foldl (fun m p => max m p.year) a = o.year := by
  induction l with
  | nil => intro a; exact Or.inl rfl
  | cons p rest ih =>
    intro a
    rcases ih (max a p.year) with h | ⟨o, ho, h⟩
    · rcases max_choice a p.year with hm | hm
      · exact Or.inl (by rw [List.foldl_cons, h, hm])
      · exact Or.inr ⟨p, List.mem_cons_self _ _, by rw [List.foldl_cons, h, hm]⟩
    · exact Or.inr ⟨o, List.mem_cons_of_mem _ ho, by rw [List.foldl_cons, h]⟩

theorem metric_value_isSome_iff (L : List (Obs α)) (c : String) :
    (metric_value L c).isSome = true ↔ ∃ o ∈ L, o.country = c := by
  constructor
  · intro h
    cases hf : L.filter (fun o => o.country == c) with
    | nil => rw [metric_value, country_latest, hf] at h; simp at h
    | cons x xs =>
      have hx : x ∈ L.filter (fun o => o.country == c) := by
        rw [hf]; exact List.mem_cons_self _ _
      have hx' := List.mem_filter.mp hx
      exact ⟨x, hx'.1, by simpa using hx'.2⟩
  · rintro ⟨o, ho, hoc⟩
    have hmem : o ∈ L.filter (fun o => o.country == c) :=
      List.mem_filter.mpr ⟨ho, by simpa using hoc⟩
    rw [metric_value, country_latest]
    cases hf : L.filter (fun o => o.country == c) with
    | nil => rw [hf] at hmem; simp at hmem
    | cons x xs => simp

/-- C7: with an empty `country_codes` list the fetch loop never runs, so
`get_wb_indicator_data` returns an empty ObservationSet and issues no
network request, for every provider behaviour, indicator code and year
range. -/
theorem c7_empty_codes_no_requests (provider : String → WBResponse α)
    (indicator_code : String) (start_year end_year : Int) :
    get_wb_indicator_data provider [] indicator_code start_year end_year = [] ∧
    wb_requests provider [] indicator_code start_year end_year = [] :=
  ⟨rfl, rfl⟩

/-- C5: when `start_year > end_year` the click handler's guard fires:
the outcome is the range error, the request list is empty, and no fetch
result is ever produced, so `get_wb_indicator_data` is never invoked. -/
theorem c5_range_guard_blocks_fetch (provider : String → WBResponse α)
    (country_codes : List String) (indicator_code : String)
    (start_year end_year : Int) (h : start_year > end_year) :
    load_data_flow provider country_codes indicator_code start_year end_year =
      (LoadOutcome.rangeError, []) ∧
    ∀ df : List (Obs α),
      (load_data_flow provider country_codes indicator_code start_year end_year).1 ≠
        LoadOutcome.fetched df := by
  constructor
  · simp [load_data_flow, h]
  · intro df
    simp [load_data_flow, h]

/-- a concrete run of scenario 2 of the spec (`startYear=2023`,
`endYear=2000`): the guard blocks the fetch and no request goes out. -/
theorem c5_range_guard_blocks_fetch_witness :
    ((2023 : Int) > 2000) ∧
    (load_data_flow (fun _ => (WBResponse.netFail : WBResponse Int))
        ["USA"] "NY.GDP.MKTP.KD.ZG" 2023 2000 = (LoadOutcome.rangeError, []) ∧
      ∀ df : List (Obs Int),
        (load_data_flow (fun _ => (WBResponse.netFail : WBResponse Int))
            ["USA"] "NY.GDP.MKTP.KD.ZG" 2023 2000).1 ≠ LoadOutcome.fetched df) :=
  ⟨by decide,
   c5_range_guard_blocks_fetch (fun _ => WBResponse.netFail)
     ["USA"] "NY.GDP.MKTP.KD.ZG" 2023 2000 (by decide)⟩

/-- C10: the result of `get_wb_indicator_data` is deterministic and
ordered: it is exactly the concatenation, over `country_codes` in input
order, of each country's processed entries; and each country's processed
entries are an order-preserving truncation of the entry list the provider
sent (the total per-entry projection extends them on the right). -/
theorem c10_result_order (provider : String → WBResponse α)
    (country_codes : List String) (indicator_code : String)
    (start_year end_year : Int) :
    get_wb_indicator_data provider country_codes indicator_code start_year end_year =
      country_codes.flatMap
        (fun c => processCountry (provider (wbUrl c indicator_code start_year end_year))) ∧
    ∀ es : List (RawEntry α), ∃ t, es.filterMap obsOfEntry = processEntries es ++ t :=
  ⟨get_wb_eq_flatMap provider country_codes indicator_code start_year end_year,
   processEntries_append_eq_filterMap⟩

/-- C3 fails as stated: with `2000 ≤ 2005`, the USA payload below has a
malformed second entry (its country field is missing), so its processing
raises mid-loop and the third entry is lost — yet the row already
appended for the first entry stays in the result, so the failing country
contributes one observation, not zero.  The other country is still
processed. -/
theorem c3_counterexample :
    get_wb_indicator_data
        (fun u => if u = wbUrl "USA" "IND" 2000 2005 then
            WBResponse.payload [⟨some "United States", some 2001, some (5 : Int)⟩,
              ⟨none, some 2002, some 6⟩, ⟨some "United States", some 2003, some 7⟩]
          else if u = wbUrl "DEU" "IND" 2000 2005 then
            WBResponse.payload [⟨some "Germany", some 2002, some 7⟩]
          else WBResponse.netFail)
        ["USA", "DEU"] "IND" 2000 2005 =
      [⟨"United States", 2001, 5⟩, ⟨"Germany", 2002, 7⟩] ∧
    (List.filter (fun o => o.country == "United States")
        (get_wb_indicator_data
          (fun u => if u = wbUrl "USA" "IND" 2000 2005 then
              WBResponse.payload [⟨some "United States", some 2001, some (5 : Int)⟩,
                ⟨none, some 2002, some 6⟩, ⟨some "United States", some 2003, some 7⟩]
            else if u = wbUrl "DEU" "IND" 2000 2005 then
              WBResponse.payload [⟨some "Germany", some 2002, some 7⟩]
            else WBResponse.netFail)
          ["USA", "DEU"] "IND" 2000 2005)) ≠ [] := by
  constructor
  · decide
  · decide

/-- C3 amended: a country whose request fails before any entry is
processed — a network or JSON-decode error, or a missing/empty payload —
contributes zero observations, and the loop continues: the result is
exactly what the remaining countries produce, spliced in order, with no
exception escaping (the function is total). -/
theorem c3_amended_failed_country_contributes_nothing
    (provider : String → WBResponse α) (codes₁ codes₂ : List String)
    (c : String) (indicator_code : String) (start_year end_year : Int)
    (h : provider (wbUrl c indicator_code start_year end_year) = WBResponse.netFail ∨
         provider (wbUrl c indicator_code start_year end_year) = WBResponse.noData) :
    get_wb_indicator_data provider (codes₁ ++ c :: codes₂) indicator_code start_year end_year =
      get_wb_indicator_data provider codes₁ indicator_code start_year end_year ++
      get_wb_indicator_data provider codes₂ indicator_code start_year end_year := by
  simp only [get_wb_eq_flatMap, fetchIndicatorSpec, List.flatMap_append, List.flatMap_cons]
  rcases h with h | h <;> simp [h, processCountry]

/-- a concrete splice: the middle country's request dies on the network,
the flanking countries' rows survive in order. -/
theorem c3_amended_failed_country_contributes_nothing_witness :
    ((fun u => if u = wbUrl "FRA" "IND" 2000 2005 then
          (WBResponse.netFail : WBResponse Int)
        else WBResponse.payload [⟨some "X", some 2001, some 1⟩])
        (wbUrl "FRA" "IND" 2000 2005) = WBResponse.netFail ∨
      (fun u => if u = wbUrl "FRA" "IND" 2000 2005 then
          (WBResponse.netFail : WBResponse Int)
        else WBResponse.payload [⟨some "X", some 2001, some 1⟩])
        (wbUrl "FRA" "IND" 2000 2005) = WBResponse.noData) ∧
    get_wb_indicator_data
        (fun u => if u = wbUrl "FRA" "IND" 2000 2005 then
            (WBResponse.netFail : WBResponse Int)
          else WBResponse.payload [⟨some "X", some 2001, some 1⟩])
        (["USA"] ++ "FRA" :: ["DEU"]) "IND" 2000 2005 =
      get_wb_indicator_data
        (fun u => if u = wbUrl "FRA" "IND" 2000 2005 then
            (WBResponse.netFail : WBResponse Int)
          else WBResponse.payload [⟨some "X", some 2001, some 1⟩])
        ["USA"] "IND" 2000 2005 ++
      get_wb_indicator_data
        (fun u => if u = wbUrl "FRA" "IND" 2000 2005 then
            (WBResponse.netFail : WBResponse Int)
          else WBResponse.payload [⟨some "X", some 2001, some 1⟩])
        ["DEU"] "IND" 2000 2005 :=
  ⟨Or.inl (by decide),
   c3_amended_failed_country_contributes_nothing _ ["USA"] ["DEU"] "FRA" "IND" 2000 2005
     (Or.inl (by decide))⟩

/-- C2 fails as stated: the year-range restriction is delegated to the
provider through the URL's `date=` parameter, and the loop body never
checks the parsed year itself, so a provider response carrying an
out-of-range date (here 1999 against the range 2000..2005, with
`2000 ≤ 2005`) puts an out-of-range observation in the result. -/
theorem c2_counterexample :
    ((2000 : Int) ≤ 2005) ∧
    ∃ o ∈ get_wb_indicator_data
        (fun _ => WBResponse.payload [⟨some "X", some 1999, some (1 : Int)⟩])
        ["USA"] "IND" 2000 2005,
      ¬((2000 : Int) ≤ o.year ∧ o.year ≤ 2005) := by
  decide

/-- C2 amended: for every provider behaviour, each returned observation's
value and year come from one of the queried responses' entries with that
non-null value (the null ones are dropped); and the year bound
`start_year ≤ year ≤ end_year` holds whenever the provider honours the
requested date window, i.e. whenever every entry of every queried
response carries a date inside the window. -/
theorem c2_amended_range_and_non_null (provider : String → WBResponse α)
    (country_codes : List String) (indicator_code : String)
    (start_year end_year : Int) :
    (∀ o ∈ get_wb_indicator_data provider country_codes indicator_code start_year end_year,
      ∃ c ∈ country_codes,
        ∃ e ∈ entriesOf (provider (wbUrl c indicator_code start_year end_year)),
          e.value = some o.value ∧ e.date = some o.year) ∧
    ((∀ c ∈ country_codes,
        ∀ e ∈ entriesOf (provider (wbUrl c indicator_code start_year end_year)),
          ∀ y : Int, e.date = some y → start_year ≤ y ∧ y ≤ end_year) →
      ∀ o ∈ get_wb_indicator_data provider country_codes indicator_code start_year end_year,
        start_year ≤ o.year ∧ o.year ≤ end_year) := by
  have htrace : ∀ o ∈ get_wb_indicator_data provider country_codes indicator_code
      start_year end_year,
      ∃ c ∈ country_codes,
        ∃ e ∈ entriesOf (provider (wbUrl c indicator_code start_year end_year)),
          e.value = some o.value ∧ e.date = some o.year := by
    intro o ho
    rw [get_wb_eq_flatMap] at ho
    simp only [fetchIndicatorSpec, List.mem_flatMap] at ho
    obtain ⟨c, hc, ho⟩ := ho
    rw [processCountry_eq] at ho
    obtain ⟨e, he, _, hed, hev⟩ := processEntries_mem _ o ho
    exact ⟨c, hc, e, he, hev, hed⟩
  refine ⟨htrace, ?_⟩
  intro h o ho
  obtain ⟨c, hc, e, he, _, hed⟩ := htrace o ho
  exact h c hc e he o.year hed

/-- a concrete run: one country, one entry dated 2001, whose observation
is traced back to its non-null entry unconditionally, and lands inside
2000..2005 once that window hypothesis is discharged. -/
theorem c2_amended_range_and_non_null_witness :
    (∀ o ∈ get_wb_indicator_data
        (fun _ => WBResponse.payload [⟨some "X", some 2001, some (5 : Int)⟩])
        ["USA"] "IND" 2000 2005,
      ∃ c ∈ ["USA"],
        ∃ e ∈ Macrodata.entriesOf
            ((fun _ => WBResponse.payload [⟨some "X", some 2001, some (5 : Int)⟩])
              (wbUrl c "IND" 2000 2005)),
          e.value = some o.value ∧ e.date = some o.year) ∧
    (∀ c ∈ ["USA"],
      ∀ e ∈ Macrodata.entriesOf
          ((fun _ => WBResponse.payload [⟨some "X", some 2001, some (5 : Int)⟩])
            (wbUrl c "IND" 2000 2005)),
        ∀ y : Int, e.date = some y → (2000 : Int) ≤ y ∧ y ≤ 2005) ∧
    ∀ o ∈ get_wb_indicator_data
        (fun _ => WBResponse.payload [⟨some "X", some 2001, some (5 : Int)⟩])
        ["USA"] "IND" 2000 2005,
      (2000 : Int) ≤ o.year ∧ o.year ≤ 2005 :=
  have hwin : ∀ c ∈ ["USA"],
      ∀ e ∈ Macrodata.entriesOf
          ((fun _ => WBResponse.payload [⟨some "X", some 2001, some (5 : Int)⟩])
            (wbUrl c "IND" 2000 2005)),
        ∀ y : Int, e.date = some y → (2000 : Int) ≤ y ∧ y ≤ 2005 := by
    intro c _ e he y hy
    simp only [entriesOf, List.mem_singleton] at he
    subst he
    simp only [Option.some.injEq] at hy
    subst hy
    decide
  ⟨(c2_amended_range_and_non_null
      (fun _ => WBResponse.payload [⟨some "X", some 2001, some (5 : Int)⟩])
      ["USA"] "IND" 2000 2005).1,
   hwin,
   (c2_amended_range_and_non_null
      (fun _ => WBResponse.payload [⟨some "X", some 2001, some (5 : Int)⟩])
      ["USA"] "IND" 2000 2005).2 hwin⟩

/-- C1 fails as stated: on two rows with the same `(Year, Country)` key,
`DataFrame.pivot` raises `ValueError` (it cannot reshape a duplicate
index), so no PivotTable is produced at all — the pivot does not complete
with the last-seen value. -/
theorem c1_counterexample :
    pivot_df [(⟨"Germany", 2010, (1 : Int)⟩ : Obs Int), ⟨"Germany", 2010, 2⟩] = none := by
  decide

/-- C1 amended: whenever the ObservationSet holds two rows sharing a
`(Year, Country)` key, the pivot fails with `ValueError` and yields no
table. -/
theorem c1_amended_duplicate_key_pivot_fails (df : List (Obs α))
    (h : ¬ df.Pairwise fun a b => ¬(a.year = b.year ∧ a.country = b.country)) :
    pivot_df df = none := by
  cases hdk : hasDupKey df with
  | true => simp [pivot_df, hdk]
  | false => exact absurd (pairwise_of_hasDupKey_eq_false hdk) h

/-- a duplicate pair makes the concrete pivot fail. -/
theorem c1_amended_duplicate_key_pivot_fails_witness :
    (¬ List.Pairwise (fun a b : Obs Int => ¬(a.year = b.year ∧ a.country = b.country))
        [⟨"France", 2000, 1⟩, ⟨"France", 2000, 3⟩]) ∧
    pivot_df [(⟨"France", 2000, (1 : Int)⟩ : Obs Int), ⟨"France", 2000, 3⟩] = none :=
  ⟨by decide, c1_amended_duplicate_key_pivot_fails _ (by decide)⟩

/-- C4 fails as stated: the CSV is produced from `pivot_df` directly,
whose index is ascending — only the on-screen dataframe is re-sorted
descending — so in this concrete export the 2010 row precedes the 2011
row even though 2010 < 2011, contradicting "years in descending order". -/
theorem c4_counterexample :
    csv_export (fun v : Int => toString v)
        [(⟨"A", 2011, (2 : Int)⟩ : Obs Int), ⟨"A", 2010, 1⟩] =
      some [["Year", "A"], ["2010", "1"], ["2011", "2"]] ∧
    ((2010 : Int) < 2011) := by
  decide

/-- C4 amended: the exported CSV lists years in ascending order — its
header row is the index name followed by the country names, its data
rows carry the year in the first column, sorted ascending — and the
download filename is the indicator label with spaces replaced by
underscores, the start year and the end year, joined by underscores,
with extension `.csv`. -/
theorem c4_amended_csv_ascending (showVal : α → String) (df : List (Obs α))
    (t : PivotTable α) (label : String) (start_year end_year : Int)
    (h : pivot_df df = some t) :
    List.Sorted (· ≤ ·) t.years ∧
    (to_csv showVal t).head? = some ("Year" :: t.countries) ∧
    ((to_csv showVal t).drop 1).map (fun r => r.headD "") = t.years.map toString ∧
    download_file_name label start_year end_year =
      download_file_name_spec label start_year end_year := by
  have hdk : hasDupKey df = false := by
    cases hdk : hasDupKey df
    · rfl
    · simp [pivot_df, hdk] at h
  simp only [pivot_df, hdk, Bool.false_eq_true, if_false, Option.some.injEq] at h
  subst h
  refine ⟨List.sorted_insertionSort _ _, rfl, ?_, rfl⟩
  simp only [to_csv, List.drop_succ_cons, List.drop_zero, List.map_map]
  have hc : ((fun r : List String => r.headD "") ∘
      fun yr : Int × List (Option α) => toString yr.1 :: yr.2.map (csvCell showVal)) =
      (fun y : Int => toString y) ∘ Prod.fst := by
    funext yr; rfl
  rw [hc, ← List.map_map]
  congr 1
  exact List.map_fst_zip _ _ (by simp)

/-- a concrete export: two years pivot into an ascending two-row CSV with
the expected header and filename. -/
theorem c4_amended_csv_ascending_witness :
    (pivot_df [(⟨"A", 2010, (1 : Int)⟩ : Obs Int), ⟨"A", 2011, 2⟩] =
      some { years := [2010, 2011], countries := ["A"],
             rows := [[some 1], [some 2]] }) ∧
    (List.Sorted (· ≤ ·)
        ({ years := [2010, 2011], countries := ["A"],
           rows := [[some 1], [some 2]] } : PivotTable Int).years ∧
      (to_csv (fun v : Int => toString v)
          { years := [2010, 2011], countries := ["A"],
            rows := [[some 1], [some 2]] }).head? =
        some ("Year" ::
          ({ years := [2010, 2011], countries := ["A"],
             rows := [[some 1], [some 2]] } : PivotTable Int).countries) ∧
      ((to_csv (fun v : Int => toString v)
          { years := [2010, 2011], countries := ["A"],
            rows := [[some 1], [some 2]] }).drop 1).map (fun r => r.headD "") =
        ({ years := [2010, 2011], countries := ["A"],
           rows := [[some 1], [some 2]] } : PivotTable Int).years.map toString ∧
      download_file_name "GDP Growth (annual %)" 2000 2023 =
        download_file_name_spec "GDP Growth (annual %)" 2000 2023) :=
  ⟨by decide,
   c4_amended_csv_ascending (fun v : Int => toString v)
     [⟨"A", 2010, 1⟩, ⟨"A", 2011, 2⟩]
     { years := [2010, 2011], countries := ["A"], rows := [[some 1], [some 2]] }
     "GDP Growth (annual %)" 2000 2023 (by decide)⟩

/-- C6: on a non-empty ObservationSet, `latest_year` is exactly the
maximum year present (it is attained by some row and bounds every row),
and the per-country metric lookup over `latest_data` holds an entry for a
country exactly when that country has an observation for that year —
countries without one are omitted, not zero-filled. -/
theorem c6_latest_year_slice (df : List (Obs α)) (h : df ≠ []) :
    ∃ m : Int, latest_year df = some m ∧
      (∃ o ∈ df, o.year = m) ∧ (∀ o ∈ df, o.year ≤ m) ∧
      ∀ c : String,
        (metric_value (latest_data df) c).isSome = true ↔
          ∃ o ∈ df, o.country = c ∧ o.year = m := by
  match df, h with
  | o :: rest, _ =>
    refine ⟨rest.foldl (fun m p => max m p.year) o.year, by rfl, ?_, ?_, ?_⟩
    · rcases foldl_max_year_mem_or rest o.year with hm | ⟨p, hp, hm⟩
      · exact ⟨o, List.mem_cons_self _ _, hm.symm⟩
      · exact ⟨p, List.mem_cons_of_mem _ hp, hm.symm⟩
    · intro p hp
      rcases List.mem_cons.mp hp with rfl | hp
      · exact foldl_max_year_le rest p.year
      · exact foldl_max_year_ge_mem rest o.year p hp
    · intro c
      have hL : latest_data (o :: rest) =
          (o :: rest).filter
            (fun p => p.year == rest.foldl (fun m p => max m p.year) o.year) := rfl
      rw [metric_value_isSome_iff, hL]
      constructor
      · rintro ⟨p, hp, hpc⟩
        have hp' := List.mem_filter.mp hp
        exact ⟨p, hp'.1, hpc, by simpa using hp'.2⟩
      · rintro ⟨p, hp, hpc, hpy⟩
        exact ⟨p, List.mem_filter.mpr ⟨hp, by simpa using hpy⟩, hpc⟩

/-- a concrete slice: two countries with different latest years, the
maximum year is 2011, only the country observed in 2011 gets a metric. -/
theorem c6_latest_year_slice_witness :
    ([(⟨"A", 2010, (1 : Int)⟩ : Obs Int), ⟨"B", 2011, 2⟩] ≠ []) ∧
    ∃ m : Int,
      latest_year [(⟨"A", 2010, (1 : Int)⟩ : Obs Int), ⟨"B", 2011, 2⟩] = some m ∧
      (∃ o ∈ [(⟨"A", 2010, (1 : Int)⟩ : Obs Int), ⟨"B", 2011, 2⟩], o.year = m) ∧
      (∀ o ∈ [(⟨"A", 2010, (1 : Int)⟩ : Obs Int), ⟨"B", 2011, 2⟩], o.year ≤ m) ∧
      ∀ c : String,
        (metric_value
            (latest_data [(⟨"A", 2010, (1 : Int)⟩ : Obs Int), ⟨"B", 2011, 2⟩])
            c).isSome = true ↔
          ∃ o ∈ [(⟨"A", 2010, (1 : Int)⟩ : Obs Int), ⟨"B", 2011, 2⟩],
            o.country = c ∧ o.year = m :=
  ⟨by decide,
   c6_latest_year_slice [⟨"A", 2010, 1⟩, ⟨"B", 2011, 2⟩] (by decide)⟩

theorem readField_ne_missing {j : JField} (h : j ≠ JField.missing) :
    ∃ v, readField j = some v := by
  cases j with
  | missing => exact absurd rfl h
  | null => exact ⟨none, rfl⟩
  | str s => exact ⟨some s, rfl⟩

theorem processCatalog_of_wellFormed (entries : List RawCountry)
    (h : wellFormed entries) :
    processCatalog entries = some (catalogSpec entries) := by
  induction entries with
  | nil => rfl
  | cons c rest ih =>
    obtain ⟨hid, _, hcap, hreg⟩ := h c (List.mem_cons_self _ _)
    have hname := (h c (List.mem_cons_self _ _)).2.1
    have hrest : wellFormed rest := fun d hd => h d (List.mem_cons_of_mem _ hd)
    cases hcapf : c.capitalCity with
    | missing => exact absurd hcapf hcap
    | null => simp [processCatalog, hcapf, ih hrest, catalogSpec, fieldTruthy]
    | str s =>
      by_cases hs : s = ""
      · simp [processCatalog, hcapf, hs, ih hrest, catalogSpec, fieldTruthy]
      · obtain ⟨vi, hvi⟩ := readField_ne_missing hid
        obtain ⟨vn, hvn⟩ := readField_ne_missing hname
        obtain ⟨vr, hvr⟩ := readField_ne_missing hreg
        simp [processCatalog, hcapf, hs, hvi, hvn, hvr, ih hrest, catalogSpec,
          fieldTruthy]

/-- C8: on a well-formed country-listing payload the loader is exactly
the spec's filter-and-project: entries whose capital-city field is null
or empty are excluded, and every entry with a non-empty capital city
contributes its `(id, name, region)` row to the result. -/
theorem c8_catalog_capital_filter (entries : List RawCountry)
    (h : wellFormed entries) :
    get_countries (CatalogResponse.ok entries) = catalogSpec entries ∧
    ∀ c ∈ entries, fieldTruthy c.capitalCity = true →
      (⟨(readField c.id).getD none, (readField c.name).getD none,
        (readField c.region_value).getD none⟩ : Country) ∈
        get_countries (CatalogResponse.ok entries) := by
  have heq : get_countries (CatalogResponse.ok entries) = catalogSpec entries := by
    simp [get_countries, processCatalog_of_wellFormed entries h]
  refine ⟨heq, ?_⟩
  intro c hc hcap
  rw [heq]
  simp only [catalogSpec, List.mem_filterMap]
  exact ⟨c, hc, by rw [if_pos hcap]⟩

/-- a concrete catalog: one real country kept with its fields, one
aggregate with an empty capital city dropped. -/
theorem c8_catalog_capital_filter_witness :
    wellFormed
        [⟨.str "FR", .str "France", .str "Paris", .str "Europe & Central Asia"⟩,
         ⟨.str "EU", .str "European Union", .str "", .null⟩] ∧
    (get_countries (CatalogResponse.ok
        [⟨.str "FR", .str "France", .str "Paris", .str "Europe & Central Asia"⟩,
         ⟨.str "EU", .str "European Union", .str "", .null⟩]) =
      catalogSpec
        [⟨.str "FR", .str "France", .str "Paris", .str "Europe & Central Asia"⟩,
         ⟨.str "EU", .str "European Union", .str "", .null⟩] ∧
      ∀ c ∈ [(⟨.str "FR", .str "France", .str "Paris",
                .str "Europe & Central Asia"⟩ : RawCountry),
             ⟨.str "EU", .str "European Union", .str "", .null⟩],
        fieldTruthy c.capitalCity = true →
          (⟨(readField c.id).getD none, (readField c.name).getD none,
            (readField c.region_value).getD none⟩ : Country) ∈
            get_countries (CatalogResponse.ok
              [⟨.str "FR", .str "France", .str "Paris", .str "Europe & Central Asia"⟩,
               ⟨.str "EU", .str "European Union", .str "", .null⟩])) :=
  ⟨by unfold wellFormed; decide,
   c8_catalog_capital_filter
     [⟨.str "FR", .str "France", .str "Paris", .str "Europe & Central Asia"⟩,
      ⟨.str "EU", .str "European Union", .str "", .null⟩] (by unfold wellFormed; decide)⟩

/-- C9: `get_countries` returns an empty sequence both on a network or
JSON-decode failure and whenever the per-entry parse raises anywhere in
the list — here, an entry lacking its capital-city key, wherever it sits
in the payload; being a total function, it raises nothing to the caller. -/
theorem c9_catalog_failure_empty (es₁ es₂ : List RawCountry) (c : RawCountry)
    (h : c.capitalCity = JField.missing) :
    get_countries (CatalogResponse.ok (es₁ ++ c :: es₂)) = [] ∧
    get_countries CatalogResponse.netFail = [] := by
  have hnone : ∀ l : List RawCountry, processCatalog (l ++ c :: es₂) = none := by
    intro l
    induction l with
    | nil => simp [processCatalog, h]
    | cons d rest ih =>
      cases hd : d.capitalCity with
      | missing => simp [processCatalog, hd]
      | null => simp [processCatalog, hd, ih]
      | str s =>
        by_cases hs : s = ""
        · simp [processCatalog, hd, hs, ih]
        · cases hi : readField d.id with
          | none => simp [processCatalog, hd, hs, hi]
          | some i =>
            cases hn : readField d.name with
            | none => simp [processCatalog, hd, hs, hi, hn]
            | some n =>
              cases hr : readField d.region_value with
              | none => simp [processCatalog, hd, hs, hi, hn, hr]
              | some r => simp [processCatalog, hd, hs, hi, hn, hr, ih]
  exact ⟨by simp [get_countries, hnone es₁], rfl⟩

/-- a concrete failing payload: a good entry followed by one missing its
capital-city key empties the whole catalog. -/
theorem c9_catalog_failure_empty_witness :
    ((⟨.str "XX", .str "Nowhere", .missing, .str "Region"⟩ : RawCountry).capitalCity =
      JField.missing) ∧
    (get_countries (CatalogResponse.ok
        ([⟨.str "FR", .str "France", .str "Paris", .str "Europe & Central Asia"⟩] ++
          (⟨.str "XX", .str "Nowhere", .missing, .str "Region"⟩ : RawCountry) :: [])) = [] ∧
      get_countries CatalogResponse.netFail = []) :=
  ⟨by decide,
   c9_catalog_failure_empty
     [⟨.str "FR", .str "France", .str "Paris", .str "Europe & Central Asia"⟩] []
     ⟨.str "XX", .str "Nowhere", .missing, .str "Region"⟩ (by decide)⟩

end Macrodata
